import Mathlib

/-!
Shallow embedding of the admission-bot Slack onboarding flow
(repository ShreySigh2912/slack_bot), translated from `src/index.js`
(the canonical DM conversation state machine and the raw `/slack/events`
dispatcher), together with the startup environment checks of `src/app.js`
and the `src/unnamed/part_002` variant.

Modelling conventions:
 * Machine state `dmState : Map userId -> {step, name?}` becomes a function
   `String -> Option DmRecord`; `Map.set` / `Map.delete` become pointwise
   function updates.
 * Outbound platform calls are recorded as an `Effect` list.  `conversations.invite`
   is recorded whenever the call is issued; a `dmMsg` effect is recorded only
   when the DM helper succeeds.  The Boolean `ok` parameter models whether the
   `dm` helper (conversations.open + chat.postMessage) succeeds for calls made
   during one delivery; the `oc : Option String` parameter models the outcome
   of `conversations.invite` (`none` = success, `some code` = the platform
   error code carried by the thrown error).
 * JavaScript truthiness of env/config strings (`undefined` or `""` are falsy)
   is modelled explicitly.
-/

/-- A per-user conversation record: `dmState` values
`{ step: 'askName' | 'askBatch', name?: string }` from `src/index.js` line 6.
`step` is kept as a raw string, exactly as in the source. -/
structure DmRecord where
  step : String
  name : Option String
  deriving DecidableEq, Repr

/-- The in-memory `dmState` map, keyed by user id. -/
def DmState : Type := String → Option DmRecord

/-- `dmState.get(userId)` -/
def dmGet (st : DmState) (u : String) : Option DmRecord := st u

/-- `dmState.set(userId, r)` -/
def dmSet (st : DmState) (u : String) (r : DmRecord) : DmState :=
  fun v => if v = u then some r else st v

/-- `dmState.delete(userId)` -/
def dmDelete (st : DmState) (u : String) : DmState :=
  fun v => if v = u then none else st v

/-- The empty map (fresh process). -/
def dmEmpty : DmState := fun _ => none

/-- Configuration read from the environment at startup (`src/index.js`
lines 8-18): the announcement channel and the two batch destination
channels.  `none` models an unset variable. -/
structure Config where
  announceChannelId : Option String
  batch2ChannelId : Option String
  batch3ChannelId : Option String

/-- JavaScript `x || null` on an optional string: an unset or empty
string collapses to `none`. -/
def orNull : Option String → Option String
  | none => none
  | some s => if s = "" then none else some s

/-- Recorded outbound side effects: a successfully posted DM, or an issued
`conversations.invite` call. -/
inductive Effect where
  | dmMsg (user : String) (text : String)
  | invite (channel : String) (user : String)
  deriving DecidableEq, Repr

/-- The DM helper (`src/index.js` lines 33-38): posts `text` to the user's IM
channel; when the helper fails (conversations.open or chat.postMessage
throws) no message is delivered. -/
def dmEff (ok : Bool) (u text : String) : List Effect :=
  if ok then [Effect.dmMsg u text] else []

/-- A `message` event as seen by the Bolt handler (`src/index.js` line 130):
channel type, optional subtype, author and text. -/
structure MsgEvent where
  channel_type : Option String
  subtype : Option String
  user : Option String
  text : Option String
  deriving Repr

/-- JavaScript `String.prototype.trim()` (strip leading and trailing
whitespace), over the character list (ASCII whitespace as in `Char.isWhitespace`).
-/
def jsTrim (s : String) : String :=
  String.mk (((s.data.dropWhile Char.isWhitespace).reverse.dropWhile Char.isWhitespace).reverse)

/-- `text.replace(/[^0-9]/g, '')` (`src/index.js` line 168): delete every
character that is not an ASCII digit. -/
def normalizeDigits (s : String) : String :=
  String.mk (s.data.filter Char.isDigit)

/-- Batch resolution (`src/index.js` lines 169-174): the digit-normalized
text selects `BATCH2_CHANNEL_ID` or `BATCH3_CHANNEL_ID` (each collapsed by
`|| null`), anything else resolves to no channel. -/
def resolveTarget (cfg : Config) (normalized : String) : Option String :=
  if normalized = "2" then orNull cfg.batch2ChannelId
  else if normalized = "3" then orNull cfg.batch3ChannelId
  else none

/-- Message text sent after the invite attempt (`src/index.js` lines
186-197): the confirmation names the destination channel; the fallback is a
fixed sentence that does not depend on the error code. -/
def inviteResultMsg (target : String) (oc : Option String) : String :=
  match oc with
  | none => "You have been invited to <#" ++ target ++ ">. Welcome!"
  | some _ => "I could not add you automatically. A moderator will help you shortly."

/-- Body of the `app.message` handler (`src/index.js` lines 135-202), after
the channel-type and subtype filters: look up the author's record and apply
the `askName` / `askBatch` branch. -/
def handleMessageBody (cfg : Config) (st : DmState) (ev : MsgEvent)
    (oc : Option String) (ok : Bool) : DmState × List Effect :=
  match ev.user with
  | none => (st, [])
  | some userId =>
    if userId = "" then (st, [])
    else
      match st userId with
      | none => (st, [])
      | some s =>
        let text := jsTrim (ev.text.getD "")
        if s.step = "askName" then
          if text = "" then
            (st, dmEff ok userId "Please share your full name.")
          else
            (dmSet st userId ⟨"askBatch", some text⟩,
              dmEff ok userId
                ("Thanks, " ++ text ++ ". Which batch are you in? 2 or 3?"))
        else if s.step = "askBatch" then
          match resolveTarget cfg (normalizeDigits text) with
          | none => (st, dmEff ok userId "Please reply with 2 or 3.")
          | some target =>
            (dmDelete st userId,
              Effect.invite target userId :: dmEff ok userId (inviteResultMsg target oc))
        else (st, [])

/-- The `app.message` handler of `src/index.js` lines 130-206, as a pure
transition: given the config, the current `dmState`, the event, the invite
outcome `oc` and DM-helper availability `ok`, produce the new `dmState` and
the recorded effects.  Mirrors the source control flow branch for branch
(`if (event?.channel_type !== 'im') return; if (message.subtype) return;`). -/
def handleMessage (cfg : Config) (st : DmState) (ev : MsgEvent)
    (oc : Option String) (ok : Bool) : DmState × List Effect :=
  if ev.channel_type ≠ some "im" then (st, [])
  else match ev.subtype with
  | some sub =>
    if sub = "" then handleMessageBody cfg st ev oc ok else (st, [])
  | none => handleMessageBody cfg st ev oc ok

/-- The `member_joined_channel` handler of `src/index.js` lines 106-127:
only join events for the configured announcement channel start a flow; the
record `{step:'askName'}` is created after the welcome DM succeeds. -/
def handleMemberJoined (cfg : Config) (st : DmState) (channel : String)
    (user : Option String) (ok : Bool) : DmState × List Effect :=
  match cfg.announceChannelId with
  | none => (st, [])
  | some ann =>
    if ann = "" then (st, [])
    else if channel ≠ ann then (st, [])
    else match user with
    | none => (st, [])
    | some userId =>
      if userId = "" then (st, [])
      else if ok then
        (dmSet st userId ⟨"askName", none⟩,
          [Effect.dmMsg userId "Welcome! What is your full name?"])
      else (st, [])

/-- One direct-message delivery: the event together with the effect oracles. -/
structure MsgDelivery where
  ev : MsgEvent
  oc : Option String
  ok : Bool

/-- Run a sequence of direct-message deliveries through the handler. -/
def runMessages (cfg : Config) (st : DmState) : List MsgDelivery → DmState
  | [] => st
  | d :: ds => runMessages cfg (handleMessage cfg st d.ev d.oc d.ok).1 ds

/-- An event routed to a Bolt handler. -/
inductive BotEvent where
  | joined (channel : String) (user : Option String) (ok : Bool)
  | msg (ev : MsgEvent) (oc : Option String) (ok : Bool)

/-- Step the whole bot by one event. -/
def botStep (cfg : Config) (st : DmState) : BotEvent → DmState × List Effect
  | .joined ch u ok => handleMemberJoined cfg st ch u ok
  | .msg ev oc ok => handleMessage cfg st ev oc ok

/-- Run a sequence of events through both handlers. -/
def runEvents (cfg : Config) (st : DmState) : List BotEvent → DmState
  | [] => st
  | e :: es => runEvents cfg (botStep cfg st e).1 es

/-! ## The raw `/slack/events` dispatcher (`src/index.js` lines 262-332)

The Express handler parses the raw body, answers `url_verification`
synchronously, acknowledges `event_callback` with an empty 200 before
routing the inner event to the Bolt handlers (whose own exceptions are
caught and logged), acknowledges unknown types with an empty 200, and
rejects a body that fails `JSON.parse` with `400 {error:'Invalid JSON'}`. -/

/-- The inner `body.event` of an `event_callback`, as routed by Bolt to the
registered handlers. -/
inductive InboundEvent where
  | memberJoined (channel : String) (user : Option String)
  | message (ev : MsgEvent)
  | other

/-- The parsed JSON envelope: `body.type`, `body.challenge`, `body.event`.
An empty raw body parses as `{}`, i.e. all fields absent. -/
structure SlackBody where
  btype : Option String
  challenge : Option String
  event : Option InboundEvent

/-- An inbound HTTP delivery: either the raw body failed `JSON.parse`, or it
parsed to a `SlackBody`. -/
inductive RawDelivery where
  | malformed
  | parsed (b : SlackBody)

/-- The response body written by the dispatcher: the empty acknowledgment,
the JSON object carrying the echoed challenge value, or the JSON error
object. -/
inductive RespBody where
  | emptyBody
  | jsonChallenge (c : Option String)
  | jsonError (msg : String)
  deriving DecidableEq, Repr

/-- An HTTP response: status code and body. -/
structure HttpResp where
  status : Nat
  body : RespBody
  deriving DecidableEq, Repr

/-- The `POST /slack/events` handler of `src/index.js` lines 265-331:
classify the delivery and route it.  Event processing errors are swallowed
(`catch (processErr)`), which the effect oracles `oc`/`ok` absorb; the
acknowledgment never depends on the handler outcome. -/
def dispatch (cfg : Config) (st : DmState) (raw : RawDelivery)
    (oc : Option String) (ok : Bool) : HttpResp × DmState × List Effect :=
  match raw with
  | .malformed => (⟨400, .jsonError "Invalid JSON"⟩, st, [])
  | .parsed b =>
    if b.btype = some "url_verification" then
      (⟨200, .jsonChallenge b.challenge⟩, st, [])
    else if b.btype = some "event_callback" then
      match b.event with
      | some (.memberJoined ch u) =>
        let r := handleMemberJoined cfg st ch u ok
        (⟨200, .emptyBody⟩, r.1, r.2)
      | some (.message ev) =>
        let r := handleMessage cfg st ev oc ok
        (⟨200, .emptyBody⟩, r.1, r.2)
      | _ => (⟨200, .emptyBody⟩, st, [])
    else (⟨200, .emptyBody⟩, st, [])

/-! ## Startup configuration checks

`src/app.js` lines 8-21 compute the list of missing required environment
variables and log it, but the boot sequence continues to `server.listen`
unconditionally.  The `src/unnamed/part_002` variant (lines 410-424)
computes its own list and calls `process.exit(1)` when it is nonempty. -/

/-- Whether the process enters service (binds the HTTP port) or exits
during startup. -/
inductive BootOutcome where
  | entersService
  | exitBeforeService
  deriving DecidableEq, Repr

/-- `requiredEnv` of `src/app.js` lines 8-14. -/
def appJsRequiredEnv : List String :=
  ["SLACK_BOT_TOKEN", "SLACK_SIGNING_SECRET", "LOBBY_CHANNEL_ID",
   "BATCH2_CHANNEL_ID", "BATCH3_CHANNEL_ID"]

/-- `requiredEnvVars` of `src/unnamed/part_002` lines 411-418 (note: the
batch channel ids are not on this list). -/
def part002RequiredEnv : List String :=
  ["SLACK_SIGNING_SECRET", "SLACK_BOT_TOKEN", "SLACK_CLIENT_ID",
   "SLACK_CLIENT_SECRET", "SLACK_REDIRECT_URL", "ANNOUNCE_CHANNEL_ID"]

/-- `requiredEnv.filter((k) => !process.env[k] || String(process.env[k]).trim() === '')`:
a variable is missing when unset, empty, or whitespace-only.  (The part_002
filter `!process.env[varName]` is the trim-free special case; an
unset or empty variable is missing under both.) -/
def missingVars (env : String → Option String) (req : List String) : List String :=
  req.filter fun k =>
    match env k with
    | none => true
    | some v => jsTrim v = ""

/-- Boot sequence of `src/app.js`: the missing-variable list is only logged
(`console.error`) and the server always proceeds to `server.listen(port)`.
The returned list records what was logged. -/
def appJsBoot (env : String → Option String) : BootOutcome × List String :=
  (BootOutcome.entersService, missingVars env appJsRequiredEnv)

/-- `!process.env[varName]` (part_002 line 420): missing means unset or
empty string. -/
def part002MissingVars (env : String → Option String) : List String :=
  part002RequiredEnv.filter fun k =>
    match env k with
    | none => true
    | some v => v = ""

/-- Boot sequence of `src/unnamed/part_002` lines 420-424: when any required
variable is missing the process logs and calls `process.exit(1)` before the
server is created. -/
def part002Boot (env : String → Option String) : BootOutcome :=
  if (part002MissingVars env).length > 0 then BootOutcome.exitBeforeService
  else BootOutcome.entersService

/-! ## Concrete test fixtures -/

/-- A fully configured environment: announce channel `C_ANN`, batch 2 to
`C_BATCH2`, batch 3 to `C_BATCH3`. -/
def cfgDemo : Config := ⟨some "C_ANN", some "C_BATCH2", some "C_BATCH3"⟩

/-- A state in which user `U1` awaits the name question. -/
def stU1AskName : DmState := dmSet dmEmpty "U1" ⟨"askName", none⟩

/-- A state in which user `U1` awaits the batch question, name `Ada` captured. -/
def stU1AskBatch : DmState := dmSet dmEmpty "U1" ⟨"askBatch", some "Ada"⟩

/-- A plain human IM from `U1` with the given text. -/
def evIm (t : String) : MsgEvent := ⟨some "im", none, some "U1", some t⟩

/-- The per-user record invariant of claim C10: every record in the
`askBatch` step carries a nonempty captured name. -/
def RecordInv (st : DmState) : Prop :=
  ∀ u r, st u = some r → r.step = "askBatch" → ∃ nm, r.name = some nm ∧ nm ≠ ""

/-! ## Basic map lemmas -/

theorem dmSet_self (st : DmState) (u : String) (r : DmRecord) :
    dmSet st u r u = some r := by
  simp [dmSet]

theorem dmSet_other (st : DmState) (u : String) (r : DmRecord) (v : String)
    (h : v ≠ u) : dmSet st u r v = st v := by
  simp [dmSet, h]

theorem dmDelete_self (st : DmState) (u : String) :
    dmDelete st u u = none := by
  simp [dmDelete]

theorem dmDelete_other (st : DmState) (u : String) (v : String)
    (h : v ≠ u) : dmDelete st u v = st v := by
  simp [dmDelete, h]

/-! ## Case analysis of a single message step -/

/-- The new state produced by the message-handler body is the old state,
an `askName → askBatch` advance for the author, or a terminal deletion of
the author's record. -/
theorem handleMessageBody_state_cases (cfg : Config) (st : DmState)
    (ev : MsgEvent) (oc : Option String) (ok : Bool) :
    (handleMessageBody cfg st ev oc ok).1 = st ∨
    (∃ userId s, ev.user = some userId ∧ st userId = some s ∧
      s.step = "askName" ∧ jsTrim (ev.text.getD "") ≠ "" ∧
      (handleMessageBody cfg st ev oc ok).1 =
        dmSet st userId ⟨"askBatch", some (jsTrim (ev.text.getD ""))⟩) ∨
    (∃ userId s, ev.user = some userId ∧ st userId = some s ∧
      s.step = "askBatch" ∧
      (handleMessageBody cfg st ev oc ok).1 = dmDelete st userId) := by
  unfold handleMessageBody
  cases hu : ev.user with
  | none => exact Or.inl rfl
  | some userId =>
    dsimp only
    by_cases hid : userId = ""
    · rw [if_pos hid]; exact Or.inl rfl
    · rw [if_neg hid]
      cases hs : st userId with
      | none => exact Or.inl rfl
      | some s =>
        dsimp only
        by_cases hname : s.step = "askName"
        · rw [if_pos hname]
          by_cases htext : jsTrim (ev.text.getD "") = ""
          · rw [if_pos htext]; exact Or.inl rfl
          · rw [if_neg htext]
            exact Or.inr (Or.inl ⟨userId, s, rfl, hs, hname, htext, rfl⟩)
        · rw [if_neg hname]
          by_cases hbatch : s.step = "askBatch"
          · rw [if_pos hbatch]
            cases ht : resolveTarget cfg (normalizeDigits (jsTrim (ev.text.getD ""))) with
            | none => exact Or.inl rfl
            | some target =>
              exact Or.inr (Or.inr ⟨userId, s, rfl, hs, hbatch, rfl⟩)
          · rw [if_neg hbatch]; exact Or.inl rfl

/-- Same case analysis for the full handler (the filters only add
unchanged-state cases). -/
theorem handleMessage_state_cases (cfg : Config) (st : DmState)
    (ev : MsgEvent) (oc : Option String) (ok : Bool) :
    (handleMessage cfg st ev oc ok).1 = st ∨
    (∃ userId s, ev.user = some userId ∧ st userId = some s ∧
      s.step = "askName" ∧ jsTrim (ev.text.getD "") ≠ "" ∧
      (handleMessage cfg st ev oc ok).1 =
        dmSet st userId ⟨"askBatch", some (jsTrim (ev.text.getD ""))⟩) ∨
    (∃ userId s, ev.user = some userId ∧ st userId = some s ∧
      s.step = "askBatch" ∧
      (handleMessage cfg st ev oc ok).1 = dmDelete st userId) := by
  unfold handleMessage
  by_cases hct : ev.channel_type ≠ some "im"
  · rw [if_pos hct]; exact Or.inl rfl
  · rw [if_neg hct]
    cases hsub : ev.subtype with
    | none => exact handleMessageBody_state_cases cfg st ev oc ok
    | some sub =>
      dsimp only
      by_cases hempty : sub = ""
      · rw [if_pos hempty]; exact handleMessageBody_state_cases cfg st ev oc ok
      · rw [if_neg hempty]; exact Or.inl rfl

/-- Per-key view of one message step: a given user's record is unchanged,
advanced from `askName` to `askBatch` with a nonempty name, or removed from
`askBatch`. -/
theorem handleMessage_step_at (cfg : Config) (st : DmState) (ev : MsgEvent)
    (oc : Option String) (ok : Bool) (u : String) :
    (handleMessage cfg st ev oc ok).1 u = st u ∨
    (∃ s nm, st u = some s ∧ s.step = "askName" ∧ nm ≠ "" ∧
      (handleMessage cfg st ev oc ok).1 u = some ⟨"askBatch", some nm⟩) ∨
    (∃ s, st u = some s ∧ s.step = "askBatch" ∧
      (handleMessage cfg st ev oc ok).1 u = none) := by
  rcases handleMessage_state_cases cfg st ev oc ok with h | ⟨v, s, _, hs, hstep, htext, h⟩ | ⟨v, s, _, hs, hstep, h⟩
  · exact Or.inl (by rw [h])
  · by_cases huv : u = v
    · subst huv
      exact Or.inr (Or.inl ⟨s, jsTrim (ev.text.getD ""), hs, hstep, htext, by
        rw [h, dmSet_self]⟩)
    · exact Or.inl (by rw [h, dmSet_other _ _ _ _ huv])
  · by_cases huv : u = v
    · subst huv
      exact Or.inr (Or.inr ⟨s, hs, hstep, by rw [h, dmDelete_self]⟩)
    · exact Or.inl (by rw [h, dmDelete_other _ _ _ huv])

/-! ## Sequence lemmas for direct-message deliveries -/

/-- A user with no record never acquires one through direct messages
(`src/index.js` lines 141-144: `if (!state) return`). -/
theorem runMessages_none (cfg : Config) (u : String) :
    ∀ (ds : List MsgDelivery) (st : DmState), st u = none →
      runMessages cfg st ds u = none := by
  intro ds
  induction ds with
  | nil => intro st h; exact h
  | cons d ds ih =>
    intro st h
    have hstep : (handleMessage cfg st d.ev d.oc d.ok).1 u = none := by
      rcases handleMessage_step_at cfg st d.ev d.oc d.ok u with hcase | ⟨s, nm, hs, _⟩ | ⟨s, hs, _⟩
      · rw [hcase, h]
      · rw [h] at hs; simp at hs
      · rw [h] at hs; simp at hs
    show runMessages cfg (handleMessage cfg st d.ev d.oc d.ok).1 ds u = none
    exact ih _ hstep

/-- From `askBatch`, direct messages either leave the record untouched or
remove it; it never returns to `askName`. -/
theorem runMessages_askBatch (cfg : Config) (u : String) (r : DmRecord)
    (hr : r.step = "askBatch") :
    ∀ (ds : List MsgDelivery) (st : DmState), st u = some r →
      runMessages cfg st ds u = some r ∨ runMessages cfg st ds u = none := by
  intro ds
  induction ds with
  | nil => intro st h; exact Or.inl h
  | cons d ds ih =>
    intro st h
    show runMessages cfg (handleMessage cfg st d.ev d.oc d.ok).1 ds u = some r ∨
      runMessages cfg (handleMessage cfg st d.ev d.oc d.ok).1 ds u = none
    rcases handleMessage_step_at cfg st d.ev d.oc d.ok u with hcase | ⟨s, nm, hs, hstep, _, hres⟩ | ⟨s, hs, _, hres⟩
    · exact ih _ (by rw [hcase, h])
    · rw [h] at hs
      injection hs with hs
      rw [← hs, hr] at hstep
      exact absurd hstep (by decide)
    · exact Or.inr (runMessages_none cfg u ds _ hres)

/-- From `askName`, direct messages leave the record untouched, advance it
to `askBatch` with a nonempty captured name, or (after such an advance)
eventually remove it; it never reaches any other step. -/
theorem runMessages_askName (cfg : Config) (u : String) (r : DmRecord)
    (hr : r.step = "askName") :
    ∀ (ds : List MsgDelivery) (st : DmState), st u = some r →
      runMessages cfg st ds u = some r ∨
      (∃ nm, nm ≠ "" ∧ runMessages cfg st ds u = some ⟨"askBatch", some nm⟩) ∨
      runMessages cfg st ds u = none := by
  intro ds
  induction ds with
  | nil => intro st h; exact Or.inl h
  | cons d ds ih =>
    intro st h
    show runMessages cfg (handleMessage cfg st d.ev d.oc d.ok).1 ds u = some r ∨
      (∃ nm, nm ≠ "" ∧
        runMessages cfg (handleMessage cfg st d.ev d.oc d.ok).1 ds u = some ⟨"askBatch", some nm⟩) ∨
      runMessages cfg (handleMessage cfg st d.ev d.oc d.ok).1 ds u = none
    rcases handleMessage_step_at cfg st d.ev d.oc d.ok u with hcase | ⟨s, nm, hs, hstep, hnm, hres⟩ | ⟨s, hs, hstep, hres⟩
    · exact ih _ (by rw [hcase, h])
    · rcases runMessages_askBatch cfg u ⟨"askBatch", some nm⟩ rfl ds _ hres with h2 | h2
      · exact Or.inr (Or.inl ⟨nm, hnm, h2⟩)
      · exact Or.inr (Or.inr h2)
    · rw [h] at hs
      injection hs with hs
      rw [← hs, hr] at hstep
      exact absurd hstep (by decide)

/-! ## Case analysis of the join handler -/

/-- The join handler either leaves the state unchanged or creates the
record `{step:'askName'}` for the joining user. -/
theorem handleMemberJoined_state_cases (cfg : Config) (st : DmState)
    (channel : String) (user : Option String) (ok : Bool) :
    (handleMemberJoined cfg st channel user ok).1 = st ∨
    (∃ userId, user = some userId ∧
      (handleMemberJoined cfg st channel user ok).1 =
        dmSet st userId ⟨"askName", none⟩) := by
  unfold handleMemberJoined
  cases cfg.announceChannelId with
  | none => exact Or.inl rfl
  | some ann =>
    dsimp only
    by_cases h1 : ann = ""
    · rw [if_pos h1]; exact Or.inl rfl
    · rw [if_neg h1]
      by_cases h2 : channel ≠ ann
      · rw [if_pos h2]; exact Or.inl rfl
      · rw [if_neg h2]
        cases user with
        | none => exact Or.inl rfl
        | some userId =>
          dsimp only
          by_cases h3 : userId = ""
          · rw [if_pos h3]; exact Or.inl rfl
          · rw [if_neg h3]
            cases ok with
            | false => exact Or.inl rfl
            | true => exact Or.inr ⟨userId, rfl, rfl⟩

/-! ## Exact evaluation of the handler branches -/

/-- With an IM channel type and no subtype, the full handler runs its body. -/
theorem handleMessage_eq_body (cfg : Config) (st : DmState) (ev : MsgEvent)
    (oc : Option String) (ok : Bool)
    (hct : ev.channel_type = some "im") (hsub : ev.subtype = none) :
    handleMessage cfg st ev oc ok = handleMessageBody cfg st ev oc ok := by
  have hcc : ¬(ev.channel_type ≠ some "im") := by rw [hct]; exact fun h => h rfl
  unfold handleMessage
  rw [if_neg hcc, hsub]

/-- `askName` branch, empty trimmed text: re-prompt, state untouched. -/
theorem body_askName_empty (cfg : Config) (st : DmState) (ev : MsgEvent)
    (oc : Option String) (ok : Bool) (u : String) (r : DmRecord)
    (hu : ev.user = some u) (hune : u ≠ "") (hst : st u = some r)
    (hr : r.step = "askName") (htext : jsTrim (ev.text.getD "") = "") :
    handleMessageBody cfg st ev oc ok =
      (st, dmEff ok u "Please share your full name.") := by
  unfold handleMessageBody
  rw [hu]
  dsimp only
  rw [if_neg hune, hst]
  dsimp only
  rw [if_pos hr, if_pos htext]

/-- `askName` branch, nonempty trimmed text: the record is advanced to
`askBatch` with the captured name *before* the batch prompt is attempted. -/
theorem body_askName_advance (cfg : Config) (st : DmState) (ev : MsgEvent)
    (oc : Option String) (ok : Bool) (u : String) (r : DmRecord)
    (hu : ev.user = some u) (hune : u ≠ "") (hst : st u = some r)
    (hr : r.step = "askName") (htext : jsTrim (ev.text.getD "") ≠ "") :
    handleMessageBody cfg st ev oc ok =
      (dmSet st u ⟨"askBatch", some (jsTrim (ev.text.getD ""))⟩,
        dmEff ok u
          ("Thanks, " ++ jsTrim (ev.text.getD "") ++ ". Which batch are you in? 2 or 3?")) := by
  unfold handleMessageBody
  rw [hu]
  dsimp only
  rw [if_neg hune, hst]
  dsimp only
  rw [if_pos hr, if_neg htext]

/-- `askBatch` branch, unrecognized batch: re-prompt, state untouched. -/
theorem body_askBatch_invalid (cfg : Config) (st : DmState) (ev : MsgEvent)
    (oc : Option String) (ok : Bool) (u : String) (r : DmRecord)
    (hu : ev.user = some u) (hune : u ≠ "") (hst : st u = some r)
    (hr : r.step = "askBatch")
    (htarget : resolveTarget cfg (normalizeDigits (jsTrim (ev.text.getD ""))) = none) :
    handleMessageBody cfg st ev oc ok =
      (st, dmEff ok u "Please reply with 2 or 3.") := by
  have hnn : r.step ≠ "askName" := by rw [hr]; decide
  unfold handleMessageBody
  rw [hu]
  dsimp only
  rw [if_neg hune, hst]
  dsimp only
  rw [if_neg hnn, if_pos hr, htarget]

/-- `askBatch` branch, recognized batch: the invite is attempted, the
post-invite message depends only on success/failure (never on the error
code), and the record is deleted unconditionally (`finally`). -/
theorem body_askBatch_valid (cfg : Config) (st : DmState) (ev : MsgEvent)
    (oc : Option String) (ok : Bool) (u : String) (r : DmRecord) (ch : String)
    (hu : ev.user = some u) (hune : u ≠ "") (hst : st u = some r)
    (hr : r.step = "askBatch")
    (htarget : resolveTarget cfg (normalizeDigits (jsTrim (ev.text.getD ""))) = some ch) :
    handleMessageBody cfg st ev oc ok =
      (dmDelete st u, Effect.invite ch u :: dmEff ok u (inviteResultMsg ch oc)) := by
  have hnn : r.step ≠ "askName" := by rw [hr]; decide
  unfold handleMessageBody
  rw [hu]
  dsimp only
  rw [if_neg hune, hst]
  dsimp only
  rw [if_neg hnn, if_pos hr, htarget]

/-- Join events for the announcement channel (re)create the `askName`
record once the welcome DM went out. -/
theorem handleMemberJoined_hit (cfg : Config) (st : DmState) (ann : String)
    (u : String) (hann : cfg.announceChannelId = some ann) (hne : ann ≠ "")
    (hu : u ≠ "") :
    handleMemberJoined cfg st ann (some u) true =
      (dmSet st u ⟨"askName", none⟩,
        [Effect.dmMsg u "Welcome! What is your full name?"]) := by
  have hcc : ¬(ann ≠ ann) := fun h => h rfl
  unfold handleMemberJoined
  rw [hann]
  dsimp only
  rw [if_neg hne, if_neg hcc, if_neg hu]
  rfl

/-! ## The C10 record invariant -/

theorem recordInv_empty : RecordInv dmEmpty := by
  intro u r h
  simp [dmEmpty] at h

theorem recordInv_msg (cfg : Config) (st : DmState) (ev : MsgEvent)
    (oc : Option String) (ok : Bool) (hInv : RecordInv st) :
    RecordInv (handleMessage cfg st ev oc ok).1 := by
  intro u r hres hstep
  rcases handleMessage_state_cases cfg st ev oc ok with hcase | ⟨v, s, _, _, _, htext, hcase⟩ | ⟨v, s, _, _, _, hcase⟩
  · rw [hcase] at hres; exact hInv u r hres hstep
  · rw [hcase] at hres
    by_cases huv : u = v
    · subst huv
      rw [dmSet_self] at hres
      injection hres with hres
      exact ⟨jsTrim (ev.text.getD ""), by rw [← hres], htext⟩
    · rw [dmSet_other _ _ _ _ huv] at hres
      exact hInv u r hres hstep
  · rw [hcase] at hres
    by_cases huv : u = v
    · subst huv; rw [dmDelete_self] at hres; simp at hres
    · rw [dmDelete_other _ _ _ huv] at hres
      exact hInv u r hres hstep

theorem recordInv_join (cfg : Config) (st : DmState) (ch : String)
    (user : Option String) (ok : Bool) (hInv : RecordInv st) :
    RecordInv (handleMemberJoined cfg st ch user ok).1 := by
  intro u r hres hstep
  rcases handleMemberJoined_state_cases cfg st ch user ok with hcase | ⟨v, _, hcase⟩
  · rw [hcase] at hres; exact hInv u r hres hstep
  · rw [hcase] at hres
    by_cases huv : u = v
    · subst huv
      rw [dmSet_self] at hres
      injection hres with hres
      rw [← hres] at hstep
      exact absurd hstep (by decide)
    · rw [dmSet_other _ _ _ _ huv] at hres
      exact hInv u r hres hstep

theorem recordInv_runEvents (cfg : Config) :
    ∀ (es : List BotEvent) (st : DmState), RecordInv st →
      RecordInv (runEvents cfg st es) := by
  intro es
  induction es with
  | nil => intro st h; exact h
  | cons e es ih =>
    intro st h
    show RecordInv (runEvents cfg (botStep cfg st e).1 es)
    cases e with
    | joined ch user ok => exact ih _ (recordInv_join cfg st ch user ok h)
    | msg ev oc ok => exact ih _ (recordInv_msg cfg st ev oc ok h)

/-! ## Claims -/

/-- Claim C1: under direct-message events, a per-user record only moves
forward.  A user without a record never gains one (no skip from creation to
`askBatch`); a record at `askBatch` is either untouched or removed, never
returned to `askName`; a record at `askName` is either untouched, advanced
to `askBatch` with a nonempty name, or (only after such an advance)
removed — no other step is ever entered. -/
theorem claim_C1_forward_only (cfg : Config) (st : DmState) (u : String)
    (ds : List MsgDelivery) :
    (st u = none → runMessages cfg st ds u = none) ∧
    (∀ r : DmRecord, st u = some r → r.step = "askBatch" →
      runMessages cfg st ds u = some r ∨ runMessages cfg st ds u = none) ∧
    (∀ r : DmRecord, st u = some r → r.step = "askName" →
      runMessages cfg st ds u = some r ∨
      (∃ nm, nm ≠ "" ∧ runMessages cfg st ds u = some ⟨"askBatch", some nm⟩) ∨
      runMessages cfg st ds u = none) :=
  ⟨fun h => runMessages_none cfg u ds st h,
   fun r h hr => runMessages_askBatch cfg u r hr ds st h,
   fun r h hr => runMessages_askName cfg u r hr ds st h⟩

/-- Witness for C1: a record at `askBatch` stays or is removed across a
concrete two-message run. -/
theorem claim_C1_forward_only_witness :
    stU1AskBatch "U1" = some ⟨"askBatch", some "Ada"⟩ ∧
    (runMessages cfgDemo stU1AskBatch [⟨evIm "nope", none, true⟩, ⟨evIm "2", none, true⟩] "U1" =
        some ⟨"askBatch", some "Ada"⟩ ∨
      runMessages cfgDemo stU1AskBatch [⟨evIm "nope", none, true⟩, ⟨evIm "2", none, true⟩] "U1" =
        none) :=
  ⟨by decide,
    (claim_C1_forward_only cfgDemo stU1AskBatch "U1"
      [⟨evIm "nope", none, true⟩, ⟨evIm "2", none, true⟩]).2.1
      ⟨"askBatch", some "Ada"⟩ (by decide) rfl⟩

/-- Claim C2: batch normalization is exactly deletion of non-digit
characters; the inputs "2", " 2 ", "batch 2" and "I'm in 2!" all normalize
to "2", resolve to `C_BATCH2` under the mapping `{2 ↦ C_BATCH2, 3 ↦ C_BATCH3}`,
and drive the handler to invite the user to `C_BATCH2`. -/
theorem claim_C2_batch_normalization :
    (normalizeDigits (jsTrim "2") = "2" ∧
     normalizeDigits (jsTrim " 2 ") = "2" ∧
     normalizeDigits (jsTrim "batch 2") = "2" ∧
     normalizeDigits (jsTrim "I\x27m in 2!") = "2") ∧
    (resolveTarget cfgDemo (normalizeDigits (jsTrim "2")) = some "C_BATCH2" ∧
     resolveTarget cfgDemo (normalizeDigits (jsTrim " 2 ")) = some "C_BATCH2" ∧
     resolveTarget cfgDemo (normalizeDigits (jsTrim "batch 2")) = some "C_BATCH2" ∧
     resolveTarget cfgDemo (normalizeDigits (jsTrim "I\x27m in 2!")) = some "C_BATCH2") ∧
    ((handleMessage cfgDemo stU1AskBatch (evIm "2") none true).2 =
        [Effect.invite "C_BATCH2" "U1",
         Effect.dmMsg "U1" "You have been invited to <#C_BATCH2>. Welcome!"] ∧
     (handleMessage cfgDemo stU1AskBatch (evIm " 2 ") none true).2 =
        [Effect.invite "C_BATCH2" "U1",
         Effect.dmMsg "U1" "You have been invited to <#C_BATCH2>. Welcome!"] ∧
     (handleMessage cfgDemo stU1AskBatch (evIm "batch 2") none true).2 =
        [Effect.invite "C_BATCH2" "U1",
         Effect.dmMsg "U1" "You have been invited to <#C_BATCH2>. Welcome!"] ∧
     (handleMessage cfgDemo stU1AskBatch (evIm "I\x27m in 2!") none true).2 =
        [Effect.invite "C_BATCH2" "U1",
         Effect.dmMsg "U1" "You have been invited to <#C_BATCH2>. Welcome!"]) := by
  refine ⟨⟨?_, ?_, ?_, ?_⟩, ⟨?_, ?_, ?_, ?_⟩, ⟨?_, ?_, ?_, ?_⟩⟩ <;> decide

/-- Claim C3: whatever the invite error code, the handler records the invite
attempt and exactly one DM — the fixed moderator fallback sentence, whose
text does not depend on the code (the code is universally quantified and
absent from the right-hand side) — and deletes the record; a subsequent
join event for the announcement channel re-creates a fresh `askName`
record. -/
theorem claim_C3_invite_failure_uniform (cfg : Config) (st : DmState)
    (ev : MsgEvent) (u : String) (r : DmRecord) (ch ann code : String)
    (hct : ev.channel_type = some "im") (hsub : ev.subtype = none)
    (hu : ev.user = some u) (hune : u ≠ "") (hst : st u = some r)
    (hr : r.step = "askBatch")
    (htarget : resolveTarget cfg (normalizeDigits (jsTrim (ev.text.getD ""))) = some ch)
    (hann : cfg.announceChannelId = some ann) (hanne : ann ≠ "") :
    handleMessage cfg st ev (some code) true =
      (dmDelete st u,
        [Effect.invite ch u,
         Effect.dmMsg u "I could not add you automatically. A moderator will help you shortly."]) ∧
    (handleMessage cfg st ev (some code) true).1 u = none ∧
    (handleMemberJoined cfg (handleMessage cfg st ev (some code) true).1 ann (some u) true).1 u =
      some ⟨"askName", none⟩ := by
  have heq : handleMessage cfg st ev (some code) true =
      (dmDelete st u,
        Effect.invite ch u :: dmEff true u (inviteResultMsg ch (some code))) :=
    (handleMessage_eq_body cfg st ev (some code) true hct hsub).trans
      (body_askBatch_valid cfg st ev (some code) true u r ch hu hune hst hr htarget)
  refine ⟨heq, ?_, ?_⟩
  · rw [heq]; exact dmDelete_self st u
  · rw [heq]
    rw [handleMemberJoined_hit cfg (dmDelete st u) ann u hann hanne hune]
    exact dmSet_self (dmDelete st u) u ⟨"askName", none⟩

/-- Witness for C3 at a concrete failed invite (`missing_scope`). -/
theorem claim_C3_invite_failure_uniform_witness :
    stU1AskBatch "U1" = some ⟨"askBatch", some "Ada"⟩ ∧
    resolveTarget cfgDemo (normalizeDigits (jsTrim "2")) = some "C_BATCH2" ∧
    handleMessage cfgDemo stU1AskBatch (evIm "2") (some "missing_scope") true =
      (dmDelete stU1AskBatch "U1",
        [Effect.invite "C_BATCH2" "U1",
         Effect.dmMsg "U1" "I could not add you automatically. A moderator will help you shortly."]) :=
  ⟨by decide, by decide,
    (claim_C3_invite_failure_uniform cfgDemo stU1AskBatch (evIm "2") "U1"
      ⟨"askBatch", some "Ada"⟩ "C_BATCH2" "C_ANN" "missing_scope"
      rfl rfl rfl (by decide) (by decide) rfl (by decide) rfl (by decide)).1⟩

/-- Claim C4: a `url_verification` envelope with any challenge value gets a
200 response whose JSON body carries exactly that challenge value, while
the record map, the message effects and the invite effects are untouched. -/
theorem claim_C4_handshake_echo (cfg : Config) (st : DmState) (c : String)
    (e : Option InboundEvent) (oc : Option String) (ok : Bool) :
    dispatch cfg st (RawDelivery.parsed ⟨some "url_verification", some c, e⟩) oc ok =
      (⟨200, RespBody.jsonChallenge (some c)⟩, st, []) := by
  rfl

/-- Counterexample for C5: a malformed (unparseable) payload is answered
with status 400 `Invalid JSON`, not with the constant success
acknowledgment. -/
theorem claim_C5_counterexample :
    (dispatch cfgDemo dmEmpty RawDelivery.malformed none true).1 =
      ⟨400, RespBody.jsonError "Invalid JSON"⟩ ∧
    (dispatch cfgDemo dmEmpty RawDelivery.malformed none true).1.status ≠ 200 :=
  ⟨rfl, by decide⟩

/-- Amended C5: every delivery that parses as JSON and is not a handshake is
acknowledged with the constant 200 success response (whatever happens during
routing), but a payload that fails JSON parsing is rejected with status 400
rather than acknowledged. -/
theorem claim_C5_ack_policy :
    (∀ (cfg : Config) (st : DmState) (b : SlackBody) (oc : Option String) (ok : Bool),
      b.btype ≠ some "url_verification" →
      (dispatch cfg st (RawDelivery.parsed b) oc ok).1 = ⟨200, RespBody.emptyBody⟩) ∧
    (∀ (cfg : Config) (st : DmState) (oc : Option String) (ok : Bool),
      (dispatch cfg st RawDelivery.malformed oc ok).1 =
        ⟨400, RespBody.jsonError "Invalid JSON"⟩) := by
  constructor
  · intro cfg st b oc ok h
    unfold dispatch
    dsimp only
    rw [if_neg h]
    by_cases h2 : b.btype = some "event_callback"
    · rw [if_pos h2]
      cases b.event with
      | none => rfl
      | some e => cases e <;> rfl
    · rw [if_neg h2]
  · intro cfg st oc ok
    rfl

/-- Witness for the amended C5 at a concrete `event_callback` envelope. -/
theorem claim_C5_ack_policy_witness :
    (some "event_callback" ≠ some "url_verification") ∧
    (dispatch cfgDemo dmEmpty (RawDelivery.parsed ⟨some "event_callback", none, none⟩) none true).1 =
      ⟨200, RespBody.emptyBody⟩ :=
  ⟨by decide,
    claim_C5_ack_policy.1 cfgDemo dmEmpty ⟨some "event_callback", none, none⟩ none true (by decide)⟩

/-- Claim C6: an empty or whitespace-only direct message in `askName` leaves
the whole record map untouched and re-issues the name prompt; any number of
such empty answers in a row still leaves the map exactly as it was. -/
theorem claim_C6_empty_name_idempotent (cfg : Config) (st : DmState)
    (ev : MsgEvent) (oc : Option String) (u : String) (r : DmRecord)
    (hct : ev.channel_type = some "im") (hsub : ev.subtype = none)
    (hu : ev.user = some u) (hune : u ≠ "") (hst : st u = some r)
    (hr : r.step = "askName") (htext : jsTrim (ev.text.getD "") = "") :
    handleMessage cfg st ev oc true =
      (st, [Effect.dmMsg u "Please share your full name."]) ∧
    (∀ ds : List MsgDelivery,
      (∀ d ∈ ds, d.ev.channel_type = some "im" ∧ d.ev.subtype = none ∧
        d.ev.user = some u ∧ jsTrim (d.ev.text.getD "") = "") →
      runMessages cfg st ds = st) := by
  constructor
  · exact (handleMessage_eq_body cfg st ev oc true hct hsub).trans
      (body_askName_empty cfg st ev oc true u r hu hune hst hr htext)
  · intro ds
    induction ds with
    | nil => intro _; rfl
    | cons d ds ih =>
      intro hall
      obtain ⟨hct2, hsub2, hu2, htext2⟩ := hall d (List.mem_cons_self d ds)
      have hstate : (handleMessage cfg st d.ev d.oc d.ok).1 = st := by
        rw [(handleMessage_eq_body cfg st d.ev d.oc d.ok hct2 hsub2).trans
          (body_askName_empty cfg st d.ev d.oc d.ok u r hu2 hune hst hr htext2)]
      show runMessages cfg (handleMessage cfg st d.ev d.oc d.ok).1 ds = st
      rw [hstate]
      exact ih (fun e he => hall e (List.mem_cons_of_mem d he))

/-- Witness for C6: one whitespace-only answer and a run of three more. -/
theorem claim_C6_empty_name_idempotent_witness :
    jsTrim "   " = "" ∧
    handleMessage cfgDemo stU1AskName (evIm "   ") none true =
      (stU1AskName, [Effect.dmMsg "U1" "Please share your full name."]) ∧
    runMessages cfgDemo stU1AskName
      [⟨evIm "", none, true⟩, ⟨evIm " ", none, true⟩, ⟨evIm "   ", none, true⟩] = stU1AskName := by
  have h := claim_C6_empty_name_idempotent cfgDemo stU1AskName (evIm "   ") none "U1"
    ⟨"askName", none⟩ rfl rfl rfl (by decide) (by decide) rfl (by decide)
  refine ⟨by decide, h.1, h.2 _ ?_⟩
  intro d hd
  fin_cases hd <;> exact ⟨rfl, rfl, rfl, by decide⟩

/-- Claim C7: a direct message in `askBatch` whose digits resolve to no
configured channel leaves the whole record map untouched (step and name
preserved, nothing deleted), posts exactly one re-prompt, and issues no
invite call. -/
theorem claim_C7_unrecognized_batch (cfg : Config) (st : DmState)
    (ev : MsgEvent) (oc : Option String) (u : String) (r : DmRecord)
    (hct : ev.channel_type = some "im") (hsub : ev.subtype = none)
    (hu : ev.user = some u) (hune : u ≠ "") (hst : st u = some r)
    (hr : r.step = "askBatch")
    (htarget : resolveTarget cfg (normalizeDigits (jsTrim (ev.text.getD ""))) = none) :
    handleMessage cfg st ev oc true =
      (st, [Effect.dmMsg u "Please reply with 2 or 3."]) ∧
    (∀ ch v, Effect.invite ch v ∉ (handleMessage cfg st ev oc true).2) := by
  have heq : handleMessage cfg st ev oc true =
      (st, [Effect.dmMsg u "Please reply with 2 or 3."]) :=
    (handleMessage_eq_body cfg st ev oc true hct hsub).trans
      (body_askBatch_invalid cfg st ev oc true u r hu hune hst hr htarget)
  refine ⟨heq, ?_⟩
  intro ch v hmem
  rw [heq] at hmem
  simp at hmem

/-- Witness for C7 at the unrecognized batch answer "5". -/
theorem claim_C7_unrecognized_batch_witness :
    resolveTarget cfgDemo (normalizeDigits (jsTrim "5")) = none ∧
    handleMessage cfgDemo stU1AskBatch (evIm "5") none true =
      (stU1AskBatch, [Effect.dmMsg "U1" "Please reply with 2 or 3."]) :=
  ⟨by decide,
    (claim_C7_unrecognized_batch cfgDemo stU1AskBatch (evIm "5") none "U1"
      ⟨"askBatch", some "Ada"⟩ rfl rfl rfl (by decide) (by decide) rfl (by decide)).1⟩

/-- Counterexample for C8: with the DM helper failing, the valid-name
message "Ada" posts nothing (`.2 = []`), yet the record of `U1` has moved
from `askName` to `askBatch` — it is not left as it was before the failed
delivery. -/
theorem claim_C8_counterexample :
    (handleMessage cfgDemo stU1AskName (evIm "Ada") none false).2 = [] ∧
    stU1AskName "U1" = some ⟨"askName", none⟩ ∧
    (handleMessage cfgDemo stU1AskName (evIm "Ada") none false).1 "U1" =
      some ⟨"askBatch", some "Ada"⟩ ∧
    ((⟨"askBatch", some "Ada"⟩ : DmRecord) ≠ ⟨"askName", none⟩) := by
  refine ⟨by decide, by decide, by decide, by decide⟩

/-- Amended C8: on DM-send failure the record map is left as-is in the
join, empty-name and unrecognized-batch branches; but in the
successful-name branch the record has already been advanced to `askBatch`
(name captured) before the prompt is posted, so a send failure leaves it at
`askBatch` with no message delivered. -/
theorem claim_C8_send_failure_state :
    (∀ (cfg : Config) (st : DmState) (ch : String) (usr : Option String),
      (handleMemberJoined cfg st ch usr false).1 = st) ∧
    (∀ (cfg : Config) (st : DmState) (ev : MsgEvent) (oc : Option String)
        (u : String) (r : DmRecord),
      ev.channel_type = some "im" → ev.subtype = none → ev.user = some u →
      u ≠ "" → st u = some r → r.step = "askName" →
      jsTrim (ev.text.getD "") = "" →
      (handleMessage cfg st ev oc false).1 = st) ∧
    (∀ (cfg : Config) (st : DmState) (ev : MsgEvent) (oc : Option String)
        (u : String) (r : DmRecord),
      ev.channel_type = some "im" → ev.subtype = none → ev.user = some u →
      u ≠ "" → st u = some r → r.step = "askBatch" →
      resolveTarget cfg (normalizeDigits (jsTrim (ev.text.getD ""))) = none →
      (handleMessage cfg st ev oc false).1 = st) ∧
    (∀ (cfg : Config) (st : DmState) (ev : MsgEvent) (oc : Option String)
        (u : String) (r : DmRecord),
      ev.channel_type = some "im" → ev.subtype = none → ev.user = some u →
      u ≠ "" → st u = some r → r.step = "askName" →
      jsTrim (ev.text.getD "") ≠ "" →
      handleMessage cfg st ev oc false =
        (dmSet st u ⟨"askBatch", some (jsTrim (ev.text.getD ""))⟩, [])) := by
  refine ⟨?_, ?_, ?_, ?_⟩
  · intro cfg st ch usr
    unfold handleMemberJoined
    cases cfg.announceChannelId with
    | none => rfl
    | some ann =>
      dsimp only
      split
      · rfl
      · split
        · rfl
        · cases usr with
          | none => rfl
          | some userId =>
            dsimp only
            split
            · rfl
            · rfl
  · intro cfg st ev oc u r hct hsub hu hune hst hr htext
    rw [(handleMessage_eq_body cfg st ev oc false hct hsub).trans
      (body_askName_empty cfg st ev oc false u r hu hune hst hr htext)]
  · intro cfg st ev oc u r hct hsub hu hune hst hr htarget
    rw [(handleMessage_eq_body cfg st ev oc false hct hsub).trans
      (body_askBatch_invalid cfg st ev oc false u r hu hune hst hr htarget)]
  · intro cfg st ev oc u r hct hsub hu hune hst hr htext
    exact (handleMessage_eq_body cfg st ev oc false hct hsub).trans
      (body_askName_advance cfg st ev oc false u r hu hune hst hr htext)

/-- Witness for the amended C8: the failed name prompt for "Ada" leaves the
record advanced to `askBatch` with nothing posted. -/
theorem claim_C8_send_failure_state_witness :
    jsTrim "Ada" ≠ "" ∧
    handleMessage cfgDemo stU1AskName (evIm "Ada") none false =
      (dmSet stU1AskName "U1" ⟨"askBatch", some "Ada"⟩, []) :=
  ⟨by decide,
    claim_C8_send_failure_state.2.2.2 cfgDemo stU1AskName (evIm "Ada") none "U1"
      ⟨"askName", none⟩ rfl rfl rfl (by decide) (by decide) rfl (by decide)⟩

/-- Counterexample for C9: with every variable unset, `BATCH2_CHANNEL_ID`
is on app.js's missing list, yet the boot sequence still enters service —
it does not fail fast. -/
theorem claim_C9_counterexample :
    "BATCH2_CHANNEL_ID" ∈ missingVars (fun _ => none) appJsRequiredEnv ∧
    (appJsBoot (fun _ => none)).1 = BootOutcome.entersService ∧
    BootOutcome.entersService ≠ BootOutcome.exitBeforeService :=
  ⟨by decide, rfl, by decide⟩

/-- Amended C9: app.js only logs missing required configuration and always
enters service; only the part_002 variant exits before accepting traffic,
and it does so exactly when one of its own required variables (a list that
does not include the batch channel ids) is missing. -/
theorem claim_C9_boot_check (env : String → Option String) :
    (appJsBoot env).1 = BootOutcome.entersService ∧
    (part002Boot env = BootOutcome.exitBeforeService ↔ part002MissingVars env ≠ []) := by
  refine ⟨rfl, ?_⟩
  unfold part002Boot
  by_cases h : (part002MissingVars env).length > 0
  · rw [if_pos h]
    constructor
    · intro _
      exact List.length_pos.mp h
    · intro _
      rfl
  · rw [if_neg h]
    constructor
    · intro hc
      exact absurd hc (by decide)
    · intro hne
      exact absurd (List.eq_nil_of_length_eq_zero (Nat.eq_zero_of_not_pos h)) hne

/-- Claim C10: in every state reachable from the empty map, any record at
step `askBatch` carries a nonempty captured name; moreover, whenever a
message step yields an `askBatch` record, that record either pre-existed
unchanged or its name is exactly the trimmed text of the message that
caused the transition (and that text is nonempty). -/
theorem claim_C10_askBatch_name (cfg : Config) :
    (∀ es : List BotEvent, RecordInv (runEvents cfg dmEmpty es)) ∧
    (∀ (st : DmState) (ev : MsgEvent) (oc : Option String) (ok : Bool)
        (u : String) (r : DmRecord),
      (handleMessage cfg st ev oc ok).1 u = some r → r.step = "askBatch" →
      st u = some r ∨
        (r.name = some (jsTrim (ev.text.getD "")) ∧ jsTrim (ev.text.getD "") ≠ "")) := by
  constructor
  · intro es
    exact recordInv_runEvents cfg es dmEmpty recordInv_empty
  · intro st ev oc ok u r hres hstep
    rcases handleMessage_state_cases cfg st ev oc ok with hcase | ⟨v, s, _, _, _, htext, hcase⟩ | ⟨v, s, _, _, _, hcase⟩
    · rw [hcase] at hres
      exact Or.inl hres
    · rw [hcase] at hres
      by_cases huv : u = v
      · subst huv
        rw [dmSet_self] at hres
        injection hres with hres
        exact Or.inr ⟨by rw [← hres], htext⟩
      · rw [dmSet_other _ _ _ _ huv] at hres
        exact Or.inl hres
    · rw [hcase] at hres
      by_cases huv : u = v
      · subst huv
        rw [dmDelete_self] at hres
        simp at hres
      · rw [dmDelete_other _ _ _ huv] at hres
        exact Or.inl hres

/-- Witness for C10: the concrete `askName → askBatch` advance on "Ada". -/
theorem claim_C10_askBatch_name_witness :
    (handleMessage cfgDemo stU1AskName (evIm "Ada") none true).1 "U1" =
      some ⟨"askBatch", some "Ada"⟩ ∧
    (stU1AskName "U1" = some ⟨"askBatch", some "Ada"⟩ ∨
      ((⟨"askBatch", some "Ada"⟩ : DmRecord).name = some (jsTrim ((evIm "Ada").text.getD "")) ∧
        jsTrim ((evIm "Ada").text.getD "") ≠ "")) :=
  ⟨by decide,
    (claim_C10_askBatch_name cfgDemo).2 stU1AskName (evIm "Ada") none true "U1"
      ⟨"askBatch", some "Ada"⟩ (by decide) rfl⟩
